import Mathlib

/-!
Verification development for the Saberis-to-Jobber synchronization pipeline.

The definitions in this file are a shallow embedding of the Python sources:
src/jobber_models.py (parsing, order assembly, name synthesis, unique key),
src/main.py (the send-to-jobber reconciliation route), and
src/gsheet/catalog_manager.py (the pricing cache write path).

Modelling conventions:
- Python floats are modelled as exact rationals.  Every numeric value
  exercised by a theorem in this file is a short decimal, which floats
  represent exactly, so the model is faithful on all inputs considered.
  Non-finite float values (inf, nan) are outside the model: the numeric
  string parser returns none for them.
- Python dicts (which preserve insertion order) are modelled as association
  lists with an update-in-place-or-append insert operation.
- Python sets are modelled as insertion-ordered duplicate-free lists; only
  membership is observed.
- Raising an exception is modelled with Except: a loop that can raise
  returns Except String, and a value .error e models the raised exception.
- MD5 is implemented in full over natural numbers (RFC 1321).
-/

namespace S2J

/-! ## Python value model -/

/-- A loosely typed JSON field value as the Python code receives it:
null, a string, or a number (int or float, modelled as a rational). -/
inductive PyVal where
  | null : PyVal
  | str (s : String) : PyVal
  | num (q : ℚ) : PyVal
deriving DecidableEq, Repr

/-- Characters stripped by the Python str.strip method (ASCII whitespace;
the unicode whitespace cases are not exercised by this program). -/
def isPyWs (c : Char) : Bool :=
  c = ' ' ∨ c = '\t' ∨ c = '\n' ∨ c = '\r' ∨ c = '\x0b' ∨ c = '\x0c'

/-- Model of Python str.strip with no arguments. -/
def pyStrip (s : String) : String :=
  ⟨(((s.data.dropWhile isPyWs).reverse).dropWhile isPyWs).reverse⟩

/-- Numeric value of a decimal digit character. -/
def digitVal (c : Char) : ℕ := c.toNat - 48

/-- Natural number denoted by a list of decimal digit characters. -/
def natOfDigits (l : List Char) : ℕ :=
  l.foldl (fun a c => 10 * a + digitVal c) 0

/-- Consume an optional leading sign; returns (isNegative, rest). -/
def parseSign : List Char → Bool × List Char
  | '-' :: r => (true, r)
  | '+' :: r => (false, r)
  | l => (false, l)

/-- Model of the Python float(string) conversion, restricted to finite
decimal literals: optional sign, digits with an optional fraction part,
and an optional decimal exponent.  The inf/nan spellings and underscore
digit separators accepted by Python are outside the rational model and
yield none; no claim in this development exercises them. -/
def pyFloatCore (l : List Char) : Option ℚ :=
  let (neg, l1) := parseSign l
  let ip := l1.takeWhile Char.isDigit
  let l2 := l1.dropWhile Char.isDigit
  let (fp, l3) :=
    match l2 with
    | '.' :: r => (r.takeWhile Char.isDigit, r.dropWhile Char.isDigit)
    | _ => ([], l2)
  let hasDot : Bool := match l2 with | '.' :: _ => true | _ => false
  if ip = [] ∧ (fp = [] ∨ hasDot = false) then none
  else
    let mant : ℚ :=
      (natOfDigits ip : ℚ) + (natOfDigits fp : ℚ) / ((10 : ℚ) ^ fp.length)
    let signed : ℚ := if neg then -mant else mant
    match l3 with
    | [] => some signed
    | 'e' :: r =>
        let (eneg, r1) := parseSign r
        let ed := r1.takeWhile Char.isDigit
        let r2 := r1.dropWhile Char.isDigit
        if ed = [] ∨ r2 ≠ [] then none
        else some (if eneg then signed / (10 : ℚ) ^ natOfDigits ed
                   else signed * (10 : ℚ) ^ natOfDigits ed)
    | 'E' :: r =>
        let (eneg, r1) := parseSign r
        let ed := r1.takeWhile Char.isDigit
        let r2 := r1.dropWhile Char.isDigit
        if ed = [] ∨ r2 ≠ [] then none
        else some (if eneg then signed / (10 : ℚ) ^ natOfDigits ed
                   else signed * (10 : ℚ) ^ natOfDigits ed)
    | _ => none

/-- Python float(string): surrounding whitespace is stripped first. -/
def pyFloat? (s : String) : Option ℚ := pyFloatCore (pyStrip s).data

/-- Lowercasing of one character, as Python str.lower acts on the ASCII
range (no other characters are exercised). -/
def charLower (c : Char) : Char :=
  if 65 ≤ c.toNat ∧ c.toNat ≤ 90 then Char.ofNat (c.toNat + 32) else c

/-- Model of Python str.lower. -/
def strToLower (s : String) : String := ⟨s.data.map charLower⟩

/-- Model of the Python membership test of a single character in a
string. -/
def containsChar (s : String) (c : Char) : Bool := s.data.any (· == c)

/-- Model of Python str.startswith. -/
def strStartsWith (s p : String) : Bool := p.data.isPrefixOf s.data

/-- The first n characters of a string (Python slicing). -/
def strTake (s : String) (n : ℕ) : String := ⟨s.data.take n⟩

/-- Model of Python str.join on a list of strings. -/
def joinSep (sep : String) : List String → String
  | [] => ""
  | [x] => x
  | x :: y :: rest => x ++ sep ++ joinSep sep (y :: rest)

/-- Join of a list of strings where every element is followed by the
separator; joinSep of a list with a nonempty tail splits into joinPre of
the front and joinSep of the tail. -/
def joinPre (sep : String) : List String → String
  | [] => ""
  | x :: xs => x ++ sep ++ joinPre sep xs

/-- Join of the elements of a trailing list, each preceded by the
separator. -/
def joinSuf (sep : String) : List String → String
  | [] => ""
  | x :: xs => sep ++ x ++ joinSuf sep xs

/-- Model of safe_float in SaberisLineItem.from_json (jobber_models.py):
None or the empty string give 0.0; otherwise float(value) is attempted and
any failure gives 0.0.  A numeric value converts to itself. -/
def safe_float : PyVal → ℚ
  | .null => 0
  | .str s => if s = "" then 0 else (pyFloat? s).getD 0
  | .num q => q

/-! ## Ordered dictionary model -/

/-- Lookup in an insertion-ordered association list (dict.get). -/
def dictGet : List (String × String) → String → Option String
  | [], _ => none
  | (k, v) :: rest, key => if k = key then some v else dictGet rest key

/-- Python dict assignment: update the existing binding in place, or
append a new binding at the end. -/
def dictInsert : List (String × String) → String → String → List (String × String)
  | [], k, v => [(k, v)]
  | (k0, v0) :: rest, k, v =>
      if k0 = k then (k, v) :: rest else (k0, v0) :: dictInsert rest k v

/-- Python dict.pop: remove the binding for a key if present. -/
def dictRemove : List (String × String) → String → List (String × String)
  | [], _ => []
  | (k0, v0) :: rest, k =>
      if k0 = k then rest else (k0, v0) :: dictRemove rest k

/-- Lookup in a rational-valued association list. -/
def costGet : List (String × ℚ) → String → Option ℚ
  | [], _ => none
  | (k, v) :: rest, key => if k = key then some v else costGet rest key

/-- Assignment in a rational-valued association list. -/
def costInsert : List (String × ℚ) → String → ℚ → List (String × ℚ)
  | [], k, v => [(k, v)]
  | (k0, v0) :: rest, k, v =>
      if k0 = k then (k, v) :: rest else (k0, v0) :: costInsert rest k v

/-- Python set.add on an insertion-ordered list model of a set. -/
def setAdd (s : List String) (v : String) : List String :=
  if v ∈ s then s else s ++ [v]

/-! ## Raw Saberis records -/

/-- One raw entry of the Saberis document item list, with the fields the
code reads (SaberisLineItemDict in jobber_models.py).  A field holds none
when the key is absent from the JSON object.  The string-typed fields are
modelled as strings because the code passes them through str() unchanged
on the inputs this program receives. -/
structure RawItem where
  type : Option String := none
  description : Option String := none
  lineID : Option Int := none
  quantity : Option PyVal := none
  listPrice : Option PyVal := none
  cost : Option PyVal := none
  productCode : Option String := none
  sku : Option String := none
  uom : Option String := none
  manufacturerPartNumber : Option String := none
  manufacturerSKU : Option String := none
  volume : Option Int := none
  weight : Option String := none
  productType : Option String := none
deriving DecidableEq, Repr

/-- Model of the Python idiom str(x or "") or None: a missing value or an
empty string becomes None, anything else is kept. -/
def strOrNone : Option String → Option String
  | none => none
  | some s => if s = "" then none else some s

/-- Model of the Python idiom int(x or d): a missing or zero value falls
back to the default (0 is falsy in Python). -/
def intOrD (x : Option Int) (d : Int) : Int :=
  match x with
  | none => d
  | some n => if n = 0 then d else n

/-! ## Enriched line items (SaberisLineItem) -/

/-- The enriched line item produced by SaberisLineItem.from_json. -/
structure SaberisLineItem where
  type : String
  line_id : Int
  description : String
  quantity : ℚ
  list_price : ℚ
  cost : ℚ
  catalog : String
  brand : String
  attributes : List (String × String)
  product_code : Option String := none
  sku : Option String := none
  uom : Option String := none
  manufacturer_part_number : Option String := none
  manufacturer_sku : Option String := none
  volume : Int := 0
  weight : Option String := none
  product_type_saberis : Option String := none
deriving DecidableEq, Repr

/-- Model of SaberisLineItem.from_json (jobber_models.py lines 239-274).
The context argument is already the copy taken by the caller; popping the
Catalog and Brand keys out of it leaves the attributes map, which
therefore never contains either key. -/
def SaberisLineItem.from_json (obj : RawItem) (context : List (String × String)) :
    SaberisLineItem :=
  let catalog := (dictGet context "Catalog").getD "Unknown Catalog"
  let ctx1 := dictRemove context "Catalog"
  let brand := (dictGet ctx1 "Brand").getD catalog
  let ctx2 := dictRemove ctx1 "Brand"
  { type := "Product"
    catalog := catalog
    brand := brand
    attributes := ctx2
    line_id := intOrD obj.lineID (-1)
    description := obj.description.getD ""
    quantity := safe_float (obj.quantity.getD (.num 1))
    list_price := safe_float (obj.listPrice.getD (.num 0))
    cost := safe_float (obj.cost.getD (.num 0))
    product_code := strOrNone obj.productCode
    sku := strOrNone obj.sku
    uom := strOrNone obj.uom
    manufacturer_part_number := strOrNone obj.manufacturerPartNumber
    manufacturer_sku := strOrNone obj.manufacturerSKU
    volume := intOrD obj.volume 0
    weight := strOrNone obj.weight
    product_type_saberis := strOrNone obj.productType }

/-! ## String helpers used by the assembly loop -/

/-- Split a string at the first occurrence of the equals sign, as Python
text.split with maxsplit 1 does; assumes the character occurs (callers
check membership first).  Returns (before, after). -/
def splitFirstEqAux : List Char → List Char × List Char
  | [] => ([], [])
  | c :: rest =>
      if c = '=' then ([], rest)
      else
        let (a, b) := splitFirstEqAux rest
        (c :: a, b)

/-- String-level wrapper for the split at the first equals sign. -/
def splitFirstEq (s : String) : String × String :=
  let (a, b) := splitFirstEqAux s.data
  (⟨a⟩, ⟨b⟩)

/-- Remainder of the haystack just after the first occurrence of the
needle, or none when the needle never occurs. -/
def findSub : List Char → List Char → Option (List Char)
  | needle, hay =>
      if needle.isPrefixOf hay then some (hay.drop needle.length)
      else
        match hay with
        | [] => none
        | _ :: t => findSub needle t

/-- Model of re.search for the pattern W=.*H=.*D= used to detect and skip
dimension markers (jobber_models.py line 331): the label matches exactly
when it contains W= then H= then D= in order. -/
def dimensionMatch (s : String) : Bool :=
  match findSub ['W', '='] s.data with
  | none => false
  | some r1 =>
      match findSub ['H', '='] r1 with
      | none => false
      | some r2 =>
          match findSub ['D', '='] r2 with
          | none => false
          | some _ => true

/-! ## Order assembly (SaberisOrder.from_json) -/

/-- Mutable state of the record-processing loop in SaberisOrder.from_json:
the rolling attribute context, the running volume and per-catalog cost
accumulators, the set of catalogs seen, and the emitted line items. -/
structure AssembleState where
  context : List (String × String) := []
  volume : Int := 0
  costByCatalog : List (String × ℚ) := []
  catalogs : List String := []
  lines : List SaberisLineItem := []
deriving DecidableEq, Repr

/-- One iteration of the record loop in SaberisOrder.from_json
(jobber_models.py lines 339-375), parametrized by the brand lookup of the
catalog manager.  A Text record carrying key=value updates the context
(with the special Catalog handling); a Product record is enriched with a
copy of the context and accumulated.  The cost accumulation indexes the
context with the Catalog key directly, which raises KeyError when no
Catalog marker has been seen; that exception is modelled by the error
result. -/
def processRawItem (getBrand : String → String) (st : AssembleState)
    (raw : RawItem) : Except String AssembleState :=
  let itemType := strToLower (raw.type.getD "")
  let description := raw.description.getD ""
  if itemType = "text" ∧ containsChar description '=' then
    if dimensionMatch description then .ok st
    else
      let kv := splitFirstEq description
      let key := pyStrip kv.1
      let value := pyStrip kv.2
      if key = "Catalog" then
        .ok { st with
              context := dictInsert (dictInsert st.context "Catalog" value)
                           "Brand" (getBrand value)
              catalogs := setAdd st.catalogs value }
      else
        .ok { st with context := dictInsert st.context key value }
  else if itemType = "product" then
    let item := SaberisLineItem.from_json raw st.context
    match dictGet st.context "Catalog" with
    | none => .error "KeyError: Catalog"
    | some cat =>
        .ok { st with
              volume := st.volume + item.volume
              costByCatalog :=
                costInsert st.costByCatalog cat
                  ((costGet st.costByCatalog cat).getD 0 +
                    item.cost * item.quantity)
              lines := st.lines ++ [item] }
  else .ok st

/-- The record loop of SaberisOrder.from_json run over a list of raw
items, threading the state and propagating a raised exception. -/
def runItems (getBrand : String → String) :
    AssembleState → List RawItem → Except String AssembleState
  | st, [] => .ok st
  | st, r :: rest =>
      match processRawItem getBrand st r with
      | .error e => .error e
      | .ok st1 => runItems getBrand st1 rest

/-- Calendar date as used for the created_at field. -/
structure PyDate where
  year : ℕ
  month : ℕ
  day : ℕ
deriving DecidableEq, Repr

/-- Split a character list on the dot character. -/
def splitOnDot : List Char → List (List Char)
  | [] => [[]]
  | c :: rest =>
      if c = '.' then [] :: splitOnDot rest
      else
        match splitOnDot rest with
        | [] => [[c]]
        | g :: gs => (c :: g) :: gs

/-- Model of datetime.strptime with the fixed format Y.m.d: three dot
separated all-digit groups with the month and day in calendar range.  The
per-month day-count validation of strptime is omitted; no claim depends
on it. -/
def parseDateYmd (s : String) : Option PyDate :=
  match splitOnDot s.data with
  | [y, m, d] =>
      if y ≠ [] ∧ m ≠ [] ∧ d ≠ [] ∧
         y.all Char.isDigit ∧ m.all Char.isDigit ∧ d.all Char.isDigit then
        let mv := natOfDigits m
        let dv := natOfDigits d
        if 1 ≤ mv ∧ mv ≤ 12 ∧ 1 ≤ dv ∧ dv ≤ 31 then
          some ⟨natOfDigits y, mv, dv⟩
        else none
      else none
  | _ => none

/-- Model of the Python idiom str(x or d) for strings: a missing or empty
value falls back to the default. -/
def pyOrStr (x : Option String) (d : String) : String :=
  match x with
  | none => d
  | some s => if s = "" then d else s

/-- Shipping address as stored by SaberisOrder. -/
structure ShippingAddress where
  street1 : String
  street2 : Option String
  city : String
  province : String
  postalCode : String
  country : String
deriving DecidableEq, Repr

/-- A complete Saberis order (dataclass SaberisOrder). -/
structure SaberisOrder where
  username : String
  created_at : PyDate
  customer_name : String
  shipping_address : ShippingAddress
  total_volume : Int := 0
  catalog_to_total_cost : List (String × ℚ) := []
  catalogs : List String := []
  lines : List SaberisLineItem := []
deriving DecidableEq, Repr

/-- The Saberis document fields the parser reads, with the JSON nesting
(SaberisOrderDocument, Order, Header, Group) flattened away: each field
holds none when the corresponding key path is absent. -/
structure SaberisDoc where
  username : Option String := none
  date : Option String := none
  customerName : Option String := none
  shipAddress : Option String := none
  shipCity : Option String := none
  shipStateOrProvince : Option String := none
  shipZipOrPostal : Option String := none
  items : List RawItem := []
deriving DecidableEq, Repr

/-- Model of SaberisOrder.from_json (jobber_models.py lines 288-386),
parametrized by the brand lookup of the catalog manager collaborator.
The record loop may raise, which propagates out of from_json; this is
modelled by the Except result. -/
def SaberisOrder.from_json (getBrand : String → String) (doc : SaberisDoc) :
    Except String SaberisOrder :=
  let username := pyOrStr doc.username "unknown"
  let dateStr := pyOrStr doc.date "1970-01-01"
  let created_at := (parseDateYmd dateStr).getD ⟨1970, 1, 1⟩
  let customer_name := pyOrStr doc.customerName "Unnamed Client"
  let ship : ShippingAddress :=
    { street1 := pyOrStr doc.shipAddress ""
      street2 := some ""
      city := pyOrStr doc.shipCity ""
      province := pyOrStr doc.shipStateOrProvince ""
      postalCode := pyOrStr doc.shipZipOrPostal ""
      country := "US" }
  match runItems getBrand {} doc.items with
  | .error e => .error e
  | .ok st =>
      .ok { username := username
            created_at := created_at
            customer_name := customer_name
            shipping_address := ship
            lines := st.lines
            total_volume := st.volume
            catalog_to_total_cost := st.costByCatalog
            catalogs := st.catalogs }

/-! ## MD5 (RFC 1321), over natural numbers

All 32-bit words are naturals kept below 2 to the 32 by explicit reduction
modulo u32 after every addition and shift. -/

/-- The 32-bit modulus. -/
def u32 : ℕ := 4294967296

/-- 32-bit bitwise complement for a word below the modulus. -/
def not32 (x : ℕ) : ℕ := 4294967295 - x

/-- 32-bit left rotation. -/
def rotl32 (x s : ℕ) : ℕ := ((x <<< s) % u32) ||| (x >>> (32 - s))

/-- MD5 round constants: floor of the absolute sine table from RFC 1321. -/
def md5K : List ℕ :=
  [3614090360, 3905402710, 606105819, 3250441966, 4118548399, 1200080426,
   2821735955, 4249261313, 1770035416, 2336552879, 4294925233, 2304563134,
   1804603682, 4254626195, 2792965006, 1236535329, 4129170786, 3225465664,
   643717713, 3921069994, 3593408605, 38016083, 3634488961, 3889429448,
   568446438, 3275163606, 4107603335, 1163531501, 2850285829, 4243563512,
   1735328473, 2368359562, 4294588738, 2272392833, 1839030562, 4259657740,
   2763975236, 1272893353, 4139469664, 3200236656, 681279174, 3936430074,
   3572445317, 76029189, 3654602809, 3873151461, 530742520, 3299628645,
   4096336452, 1126891415, 2878612391, 4237533241, 1700485571, 2399980690,
   4293915773, 2240044497, 1873313359, 4264355552, 2734768916, 1309151649,
   4149444226, 3174756917, 718787259, 3951481745]

/-- MD5 per-round left-rotation amounts. -/
def md5S : List ℕ :=
  [7, 12, 17, 22, 7, 12, 17, 22, 7, 12, 17, 22, 7, 12, 17, 22,
   5, 9, 14, 20, 5, 9, 14, 20, 5, 9, 14, 20, 5, 9, 14, 20,
   4, 11, 16, 23, 4, 11, 16, 23, 4, 11, 16, 23, 4, 11, 16, 23,
   6, 10, 15, 21, 6, 10, 15, 21, 6, 10, 15, 21, 6, 10, 15, 21]

/-- Little-endian byte decomposition of a natural, n bytes. -/
def leBytes : ℕ → ℕ → List ℕ
  | 0, _ => []
  | n + 1, x => (x % 256) :: leBytes n (x / 256)

/-- The sixteen little-endian 32-bit words of one 64-byte block. -/
def blockWord (block : List ℕ) (j : ℕ) : ℕ :=
  block.getD (4 * j) 0 + 256 * block.getD (4 * j + 1) 0 +
    65536 * block.getD (4 * j + 2) 0 + 16777216 * block.getD (4 * j + 3) 0

/-- One of the 64 MD5 rounds applied to the running (a, b, c, d) words. -/
def md5round (block : List ℕ) (st : ℕ × ℕ × ℕ × ℕ) (i : ℕ) : ℕ × ℕ × ℕ × ℕ :=
  let a := st.1
  let b := st.2.1
  let c := st.2.2.1
  let d := st.2.2.2
  let fg : ℕ × ℕ :=
    if i < 16 then ((b &&& c) ||| (not32 b &&& d), i)
    else if i < 32 then ((d &&& b) ||| (not32 d &&& c), (5 * i + 1) % 16)
    else if i < 48 then (b ^^^ c ^^^ d, (3 * i + 5) % 16)
    else (c ^^^ (b ||| not32 d), (7 * i) % 16)
  let f := (fg.1 + a + md5K.getD i 0 + blockWord block fg.2) % u32
  (d, (b + rotl32 f (md5S.getD i 0)) % u32, b, c)

/-- Process one 64-byte block, updating the four state words. -/
def md5block (st : ℕ × ℕ × ℕ × ℕ) (block : List ℕ) : ℕ × ℕ × ℕ × ℕ :=
  let r := (List.range 64).foldl (md5round block) st
  ((st.1 + r.1) % u32, (st.2.1 + r.2.1) % u32,
   (st.2.2.1 + r.2.2.1) % u32, (st.2.2.2 + r.2.2.2) % u32)

/-- Process the padded message 64 bytes at a time; the fuel argument is
the block count, making the recursion structural. -/
def md5loop : ℕ → ℕ × ℕ × ℕ × ℕ → List ℕ → ℕ × ℕ × ℕ × ℕ
  | 0, st, _ => st
  | n + 1, st, bytes => md5loop n (md5block st (bytes.take 64)) (bytes.drop 64)

/-- MD5 padding: 0x80, zeros to 56 modulo 64, then the bit length as a
little-endian 64-bit quantity. -/
def md5pad (msg : List ℕ) : List ℕ :=
  let padLen := (55 + 64 - msg.length % 64) % 64
  msg ++ [128] ++ List.replicate padLen 0 ++ leBytes 8 ((8 * msg.length) % 2 ^ 64)

/-- The sixteen digest bytes of a byte message. -/
def md5bytes (msg : List ℕ) : List ℕ :=
  let padded := md5pad msg
  let st := md5loop (padded.length / 64)
    (1732584193, 4023233417, 2562383102, 271733878) padded
  leBytes 4 st.1 ++ leBytes 4 st.2.1 ++ leBytes 4 st.2.2.1 ++ leBytes 4 st.2.2.2

/-- Lowercase hexadecimal digit. -/
def hexDigit (n : ℕ) : Char :=
  if n < 10 then Char.ofNat (48 + n) else Char.ofNat (87 + n)

/-- Lowercase hexadecimal rendering of a byte list. -/
def bytesToHex (l : List ℕ) : List Char :=
  l.foldr (fun b acc => hexDigit (b / 16) :: hexDigit (b % 16) :: acc) []

/-- UTF-8 encoding of one character scalar value. -/
def utf8Char (c : Char) : List ℕ :=
  let n := c.toNat
  if n < 128 then [n]
  else if n < 2048 then [192 + n / 64, 128 + n % 64]
  else if n < 65536 then
    [224 + n / 4096, 128 + n / 64 % 64, 128 + n % 64]
  else
    [240 + n / 262144, 128 + n / 4096 % 64, 128 + n / 64 % 64, 128 + n % 64]

/-- UTF-8 encoding of a string, as Python str.encode produces. -/
def utf8Bytes (s : String) : List ℕ :=
  s.data.foldr (fun c acc => utf8Char c ++ acc) []

/-- Lowercase hexadecimal MD5 digest of the UTF-8 encoding of a string,
as hashlib.md5(s.encode()).hexdigest() computes. -/
def md5hex (s : String) : String := ⟨bytesToHex (md5bytes (utf8Bytes s))⟩

/-! ## Canonical JSON serialization (json.dumps with sorted keys)

Used by SaberisOrder.unique_key, which serializes asdict of every line
item with sort_keys True and the default item and key separators. -/

/-- Decimal digit characters of a positive natural, most significant
first; the first argument is recursion fuel. -/
def natDigits : ℕ → ℕ → List Char
  | 0, _ => []
  | _ + 1, 0 => []
  | fuel + 1, n => natDigits fuel (n / 10) ++ [hexDigit (n % 10)]

/-- Decimal rendering of a natural number. -/
def natStr (n : ℕ) : String := if n = 0 then "0" else ⟨natDigits n n⟩

/-- Decimal rendering of an integer, as json.dumps renders Python ints. -/
def intStr (i : ℤ) : String :=
  if i < 0 then "-" ++ natStr i.natAbs else natStr i.natAbs

/-- JSON escape of one character, following json.dumps with its default
ensure_ascii: the two mandatory escapes, the named control escapes, and
u-escapes for other control characters and all characters above 0x7e.
Characters beyond the basic multilingual plane (which json.dumps encodes
as surrogate pairs) do not occur in this development. -/
def jsonEscapeChar (c : Char) : List Char :=
  let n := c.toNat
  if c = '"' then ['\\', '"']
  else if c = '\\' then ['\\', '\\']
  else if c = '\n' then ['\\', 'n']
  else if c = '\t' then ['\\', 't']
  else if c = '\r' then ['\\', 'r']
  else if n = 8 then ['\\', 'b']
  else if n = 12 then ['\\', 'f']
  else if n < 32 ∨ 127 ≤ n then
    ['\\', 'u', hexDigit (n / 4096 % 16), hexDigit (n / 256 % 16),
     hexDigit (n / 16 % 16), hexDigit (n % 16)]
  else [c]

/-- JSON string literal for a Python string, per json.dumps. -/
def pyJsonStr (s : String) : String :=
  "\"" ++ ⟨s.data.foldr (fun c acc => jsonEscapeChar c ++ acc) []⟩ ++ "\""

/-- Zero-pad a decimal string on the left to a given width. -/
def padZeros (width : ℕ) (s : String) : String :=
  ⟨List.replicate (width - s.length) '0'⟩ ++ s

/-- Rendering of a float value by repr, as json.dumps emits it.  Exact
for floats whose value is a terminating decimal within the positional
notation range, which covers every float this program produces from its
inputs; other rationals take a documented fallback form never exercised
by the theorems below. -/
def pyFloatRepr (q : ℚ) : String :=
  let sign := if q < 0 then "-" else ""
  let a := |q|
  if a.den = 1 then sign ++ natStr a.num.natAbs ++ ".0"
  else
    match (List.range 31).find? (fun k => (a * (10 : ℚ) ^ k).den == 1) with
    | some k =>
        let scaled := (a * (10 : ℚ) ^ k).num.natAbs
        sign ++ natStr (scaled / 10 ^ k) ++ "." ++
          padZeros k (natStr (scaled % 10 ^ k))
    | none => sign ++ natStr a.num.natAbs ++ "div" ++ natStr a.den

/-- JSON rendering of an optional string field: null or a string. -/
def jsonOptStr : Option String → String
  | none => "null"
  | some s => pyJsonStr s

/-- Sort attribute pairs by key, as json.dumps with sort_keys True orders
the keys of the attributes dict. -/
def sortPairs (l : List (String × String)) : List (String × String) :=
  List.insertionSort (fun a b : String × String => a.1 ≤ b.1) l

/-- Serialization of the attributes dict with sorted keys. -/
def serializeAttrs (l : List (String × String)) : String :=
  "\x7b" ++
    joinSep ", "
      ((sortPairs l).map fun kv => pyJsonStr kv.1 ++ ": " ++ pyJsonStr kv.2) ++
  "\x7d"

/-- Serialization of asdict of one line item by json.dumps with sorted
keys; the seventeen dataclass fields are written here directly in the
sorted key order that sort_keys produces. -/
def serializeLineItem (li : SaberisLineItem) : String :=
  "\x7b" ++
    joinSep ", "
      [pyJsonStr "attributes" ++ ": " ++ serializeAttrs li.attributes,
       pyJsonStr "brand" ++ ": " ++ pyJsonStr li.brand,
       pyJsonStr "catalog" ++ ": " ++ pyJsonStr li.catalog,
       pyJsonStr "cost" ++ ": " ++ pyFloatRepr li.cost,
       pyJsonStr "description" ++ ": " ++ pyJsonStr li.description,
       pyJsonStr "line_id" ++ ": " ++ intStr li.line_id,
       pyJsonStr "list_price" ++ ": " ++ pyFloatRepr li.list_price,
       pyJsonStr "manufacturer_part_number" ++ ": " ++
         jsonOptStr li.manufacturer_part_number,
       pyJsonStr "manufacturer_sku" ++ ": " ++ jsonOptStr li.manufacturer_sku,
       pyJsonStr "product_code" ++ ": " ++ jsonOptStr li.product_code,
       pyJsonStr "product_type_saberis" ++ ": " ++
         jsonOptStr li.product_type_saberis,
       pyJsonStr "quantity" ++ ": " ++ pyFloatRepr li.quantity,
       pyJsonStr "sku" ++ ": " ++ jsonOptStr li.sku,
       pyJsonStr "type" ++ ": " ++ pyJsonStr li.type,
       pyJsonStr "uom" ++ ": " ++ jsonOptStr li.uom,
       pyJsonStr "volume" ++ ": " ++ intStr li.volume,
       pyJsonStr "weight" ++ ": " ++ jsonOptStr li.weight] ++
  "\x7d"

/-- The canonical payload string hashed by unique_key: json.dumps of the
list of asdict serializations with sorted keys. -/
def payloadString (lines : List SaberisLineItem) : String :=
  "[" ++ joinSep ", " (lines.map serializeLineItem) ++ "]"

/-- Model of datetime.strftime with format Ymd. -/
def fmtDateYmd (d : PyDate) : String :=
  padZeros 4 (natStr d.year) ++ padZeros 2 (natStr d.month) ++
    padZeros 2 (natStr d.day)

/-- Model of SaberisOrder.first_catalog_code (jobber_models.py lines
388-393): the first Text line whose description starts with Catalog=
yields the stripped text after the equals sign; NA otherwise. -/
def firstCatalogCode : List SaberisLineItem → String
  | [] => "NA"
  | li :: rest =>
      if li.type = "Text" ∧ strStartsWith li.description "Catalog=" then
        pyStrip (splitFirstEq li.description).2
      else firstCatalogCode rest

/-- Model of SaberisOrder.unique_key (jobber_models.py lines 395-402). -/
def SaberisOrder.unique_key (o : SaberisOrder) : String :=
  o.username ++ "_" ++ fmtDateYmd o.created_at ++ "_" ++
    firstCatalogCode o.lines ++ "_" ++ strTake (md5hex (payloadString o.lines)) 4

/-! ## Name and description synthesis (get_line_items_from_export) -/

/-- The Jobber quote line item produced for each product
(QuoteLineEditItemGQL). -/
structure QuoteLineEditItem where
  name : String
  quantity : ℚ
  unitPrice : ℚ
  description : String
  unitCost : Option ℚ
  taxable : Bool
  saveToProductsAndServices : Bool
  productOrServiceId : Option String
deriving DecidableEq, Repr

/-- The opening curly brace character. -/
def openBrace : Char := Char.ofNat 123

/-- The closing curly brace character. -/
def closeBrace : Char := Char.ofNat 125

/-- Remainder after the first closing brace, if any. -/
def dropToClose : List Char → Option (List Char)
  | [] => none
  | c :: rest => if c = closeBrace then some rest else dropToClose rest

/-- Model of remove_curly_braces_and_content (text_utilities.py): re.sub
of the non-greedy brace pattern removes each leftmost-shortest braced
block; an opening brace with no later closing brace stays.  The fuel
argument bounds the recursion by the list length; every step consumes at
least one character, so the initial fuel always suffices. -/
def removeCurlyAux : ℕ → List Char → List Char
  | 0, l => l
  | _ + 1, [] => []
  | fuel + 1, c :: rest =>
      if c = openBrace then
        match dropToClose rest with
        | some rest1 => removeCurlyAux fuel rest1
        | none => c :: removeCurlyAux fuel rest
      else c :: removeCurlyAux fuel rest

/-- Model of remove_curly_braces_and_content on strings. -/
def remove_curly_braces_and_content (s : String) : String :=
  ⟨removeCurlyAux s.data.length s.data⟩

/-- The FIELDs_TO_PUT_IN_TITLE set of jobber_models.py. -/
def titleField (k : String) : Bool := k = "Door Selection" ∨ k = "Cabinet Style"

/-- The price-level key test of the synthesis loop: key.strip().lower()
equal to pricelevel. -/
def isPriceLevel (k : String) : Bool := strToLower (pyStrip k) = "pricelevel"

/-- Description lines contributed by one attribute, in loop order: a
price-level attribute contributes nothing; Species / Finish contributes
an extra swapped line before the regular line. -/
def attrDescLines (k v : String) : List String :=
  if isPriceLevel k then []
  else if k = "Species / Finish" then
    ["Finish / Species: " ++ v, k ++ ": " ++ v]
  else [k ++ ": " ++ v]

/-- All description lines of an attributes map, in insertion order. -/
def descParts (attrs : List (String × String)) : List String :=
  attrs.foldr (fun kv acc => attrDescLines kv.1 kv.2 ++ acc) []

/-- Title contributions of one attribute: the value, when the key is in
the title set (price-level attributes are skipped before this check). -/
def attrTitleVals (k v : String) : List String :=
  if isPriceLevel k then [] else if titleField k then [v] else []

/-- Title contributions of an attributes map, in insertion order. -/
def titleVals (attrs : List (String × String)) : List String :=
  attrs.foldr (fun kv acc => attrTitleVals kv.1 kv.2 ++ acc) []

/-- The base name parts before joining: brand, cleaned description, then
title-worthy attribute values. -/
def baseNameParts (li : SaberisLineItem) : List String :=
  [li.brand, remove_curly_braces_and_content li.description] ++
    titleVals li.attributes

/-- The base product name: the nonempty name parts joined by the fixed
separator (filter None drops empty strings). -/
def baseProductName (li : SaberisLineItem) : String :=
  joinSep " | " ((baseNameParts li).filter (· ≠ ""))

/-- The newline-joined description string. -/
def jobberDescription (li : SaberisLineItem) : String :=
  joinSep "\n" (descParts li.attributes)

/-- The signature string hashed for cross-system identity: the base name
followed directly by the description. -/
def signatureStr (li : SaberisLineItem) : String :=
  baseProductName li ++ jobberDescription li

/-- The six character hash suffix source: md5 of the signature, first six
hex characters. -/
def shortHash (li : SaberisLineItem) : String := strTake (md5hex (signatureStr li)) 6

/-- Model of the per-item transformation of get_line_items_from_export
(jobber_models.py lines 451-495). -/
def synthesizeLine (li : SaberisLineItem) (uiQuantity : ℤ) : QuoteLineEditItem :=
  { name := baseProductName li ++ " | S2J(" ++ shortHash li ++ ")"
    quantity := li.quantity * (uiQuantity : ℚ)
    unitPrice := li.cost
    description := jobberDescription li
    unitCost := if li.cost > 0 then some li.cost else none
    taxable := false
    saveToProductsAndServices := true
    productOrServiceId := none }

/-- Model of get_line_items_from_export applied to an already parsed
order: non-product lines are skipped and each product line is
synthesized. -/
def get_line_items_from_export (order : SaberisOrder) (uiQuantity : ℤ) :
    List QuoteLineEditItem :=
  (order.lines.filter (·.type = "Product")).map (synthesizeLine · uiQuantity)

/-! ## Reconciliation (main.py send_to_jobber) -/

/-- A desired line item as received in the send-to-jobber payload, with
the fields the route reads and writes. -/
structure DesiredItem where
  name : String
  quantity : ℚ
  unitPrice : ℚ := 0
  unitCost : Option ℚ := none
  description : Option String := none
  taxable : Bool := false
  saveToProductsAndServices : Bool := true
deriving DecidableEq, Repr

/-- A remote line item of the target quote or job: id, name and quantity
as returned by the Jobber API. -/
structure RemoteLineItem where
  id : String
  name : String
  quantity : Option ℚ := none
deriving DecidableEq, Repr

/-- An emitted update operation: the remote line item id with the desired
quantity. -/
structure UpdateOp where
  lineItemId : String
  quantity : ℚ
deriving DecidableEq, Repr

/-- One step of the aggregation loop (main.py lines 206-213): when the
name is already a key of the aggregation dict, its stored quantity grows
by the new quantity; otherwise the item is appended. -/
def aggInsert : List DesiredItem → DesiredItem → List DesiredItem
  | [], item => [item]
  | d :: rest, item =>
      if d.name = item.name then
        { d with quantity := d.quantity + item.quantity } :: rest
      else d :: aggInsert rest item

/-- The aggregation of desired items by name, in first-occurrence order
(the values view of the Python dict). -/
def aggregateItems (items : List DesiredItem) : List DesiredItem :=
  items.foldl aggInsert []

/-- The existing-items-by-name map: a dict comprehension keeps the last
item for each name, so lookup finds the last occurrence. -/
def existingLookup (nodes : List RemoteLineItem) (name : String) :
    Option RemoteLineItem :=
  nodes.reverse.find? (·.name = name)

/-- The add/update partition of the Quote branch (main.py lines 240-255):
for each aggregated desired item, a name found in the existing map with a
truthy id and a differing quantity yields an update, a missing name
yields an add, and an equal quantity yields nothing. -/
def reconcileQuote (desired : List DesiredItem) (existing : List RemoteLineItem) :
    List DesiredItem × List UpdateOp :=
  (aggregateItems desired).foldl
    (fun acc d =>
      match existingLookup existing d.name with
      | some e =>
          if e.id ≠ "" ∧ e.quantity ≠ some d.quantity then
            (acc.1, acc.2 ++ [⟨e.id, d.quantity⟩])
          else acc
      | none => (acc.1 ++ [d], acc.2))
    ([], [])

/-- The add/update partition of the Job branch (main.py lines 257-283):
identical to the Quote branch except that an added item is rewritten to
carry unitPrice zero and a saveToProductsAndServices flag that is true
exactly when its name is absent from the products-and-services names. -/
def reconcileJob (desired : List DesiredItem) (existing : List RemoteLineItem)
    (productNames : List String) : List DesiredItem × List UpdateOp :=
  (aggregateItems desired).foldl
    (fun acc d =>
      match existingLookup existing d.name with
      | some e =>
          if e.id ≠ "" ∧ e.quantity ≠ some d.quantity then
            (acc.1, acc.2 ++ [⟨e.id, d.quantity⟩])
          else acc
      | none =>
          (acc.1 ++
            [{ d with
               saveToProductsAndServices := ¬ d.name ∈ productNames
               unitPrice := 0 }],
           acc.2))
    ([], [])

/-! ## Pricing cache write path (CatalogManager.set_markup) -/

/-- Outcomes of the three worksheet operations set_markup may perform,
as functions of the arguments the code passes them: a raised store-layer
exception is the error case.  The find outcome carries the found cell
row, or none when the catalog id has no cell. -/
structure WorksheetBehavior where
  findResult : String → Except Unit (Option ℕ)
  updateResult : ℕ → ℚ → Except Unit Unit
  appendResult : String → ℚ → Except Unit Unit

/-- The cache state of a CatalogManager: the brand and markup cache and
the freshness timestamp. -/
structure CacheState where
  cache : List (String × String × ℚ)
  lastUpdated : ℚ
deriving DecidableEq, Repr

/-- Model of CatalogManager.set_markup (catalog_manager.py lines 95-121):
find the cell for the catalog id, then update the existing row or append
a new one; on success the freshness timestamp is zeroed and True is
returned; a store-layer exception anywhere in the try block is caught and
returns False with the state untouched. -/
def set_markup (ws : WorksheetBehavior) (st : CacheState)
    (catalogId : String) (markup : ℚ) : Bool × CacheState :=
  match ws.findResult catalogId with
  | .error _ => (false, st)
  | .ok (some row) =>
      match ws.updateResult row markup with
      | .error _ => (false, st)
      | .ok _ => (true, { st with lastUpdated := 0 })
  | .ok none =>
      match ws.appendResult catalogId markup with
      | .error _ => (false, st)
      | .ok _ => (true, { st with lastUpdated := 0 })

/-! ## Observers and fixtures used by the theorems -/

/-- Whether the sequence of store operations performed by set_markup
succeeds: the find followed by the update of the found row, or by the
append of a new row. -/
def writeOutcome (ws : WorksheetBehavior) (cid : String) (m : ℚ) : Bool :=
  match ws.findResult cid with
  | .error _ => false
  | .ok (some row) =>
      match ws.updateResult row m with
      | .ok _ => true
      | .error _ => false
  | .ok none =>
      match ws.appendResult cid m with
      | .ok _ => true
      | .error _ => false

/-- A worksheet whose find operation raises a store-layer exception. -/
def failingWs : WorksheetBehavior :=
  { findResult := fun _ => .error ()
    updateResult := fun _ _ => .ok ()
    appendResult := fun _ _ => .ok () }

/-- A worksheet on which every operation succeeds, with the catalog id
found in row one. -/
def okWs : WorksheetBehavior :=
  { findResult := fun _ => .ok (some 1)
    updateResult := fun _ _ => .ok ()
    appendResult := fun _ _ => .ok () }

/-- A Text record carrying the given label, as the assembly loop sees a
marker. -/
def mkTextMarker (label : String) : RawItem :=
  { type := some "Text", description := some label }

/-- A concrete brand lookup distinct from the identity, for exhibiting
the difference between the raw catalog value and the derived brand. -/
def testBrand (s : String) : String := s ++ "-brand"

/-- Total quantity carried by a name in a desired-item list. -/
def qtyOf (L : List DesiredItem) (n : String) : ℚ :=
  ((L.filter (·.name = n)).map (·.quantity)).sum

/-- The update operation the Quote branch emits for one aggregated
desired item, when any. -/
def quoteUpdOf (E : List RemoteLineItem) (d : DesiredItem) : Option UpdateOp :=
  match existingLookup E d.name with
  | some e =>
      if e.id ≠ "" ∧ e.quantity ≠ some d.quantity then some ⟨e.id, d.quantity⟩
      else none
  | none => none

/-- The rewriting the Job branch applies to an item it adds. -/
def jobAddRewrite (P : List String) (d : DesiredItem) : DesiredItem :=
  { d with saveToProductsAndServices := ¬ d.name ∈ P, unitPrice := 0 }

/-- Modelled from the spec (contract resolveCatalogLink of the
Reconciliation Engine, which has no counterpart in the source): the six
character hash carried by the S2J suffix of a synthesized name, when the
name ends with that suffix.  Used only to express which inputs carry
matching hash suffixes. -/
def spec_extractS2JHash (s : String) : Option String :=
  match s.data.reverse with
  | ')' :: a :: b :: c :: d :: e :: f :: '(' :: 'J' :: '2' :: 'S' :: _ =>
      some ⟨[f, e, d, c, b, a]⟩
  | _ => none

/-- Fixture shipping address for concrete orders. -/
def sampleShip : ShippingAddress :=
  { street1 := "", street2 := some "", city := "", province := ""
    postalCode := "", country := "US" }

/-- Fixture product line item with a given description. -/
def sampleItem (d : String) : SaberisLineItem :=
  { type := "Product", line_id := 1, description := d, quantity := 1,
    list_price := 0, cost := 0, catalog := "", brand := "", attributes := [] }

/-- Fixture order around a single line item with a given description. -/
def sampleOrder (d : String) : SaberisOrder :=
  { username := "u", created_at := ⟨2024, 1, 2⟩, customer_name := "c",
    shipping_address := sampleShip, lines := [sampleItem d] }

/-- An arbitrary raw record marked as a product record. -/
def asProduct (r : RawItem) : RawItem := { r with type := some "Product" }

/-! # Theorems -/

/-- C2: the spec states that the order assembler returns an Order without
raising for every syntactically parseable record stream, including one
whose first product record precedes any Catalog marker; the code instead
indexes the loop context with the Catalog key while accumulating costs
(jobber_models.py line 373) and raises KeyError there, although the item
itself was just built with the documented Unknown Catalog fallback.  This
theorem evaluates the model at the failing input. -/
theorem C2_product_before_marker_raises :
    SaberisOrder.from_json (fun s => s) { items := [{ type := some "Product" }] } =
      .error "KeyError: Catalog" := rfl

/-- C9 (amended): the set_markup write path returns true exactly when the
sequence of store operations succeeds, zeroes the freshness timestamp on
success (in both the update-existing and append-new paths), and on a
store-layer error returns false with the cache state, including the
timestamp, unchanged; being a total function, it never raises. -/
theorem C9_set_markup_write_path (ws : WorksheetBehavior) (st : CacheState)
    (cid : String) (m : ℚ) :
    ((set_markup ws st cid m).1 = true →
        (set_markup ws st cid m).2 = { st with lastUpdated := 0 })
    ∧ ((set_markup ws st cid m).1 = false → (set_markup ws st cid m).2 = st)
    ∧ (set_markup ws st cid m).1 = writeOutcome ws cid m := by
  cases hf : ws.findResult cid with
  | error e => simp [set_markup, writeOutcome, hf]
  | ok oc =>
    cases oc with
    | none =>
      cases ha : ws.appendResult cid m with
      | error e => simp [set_markup, writeOutcome, hf, ha]
      | ok u => simp [set_markup, writeOutcome, hf, ha]
    | some row =>
      cases hu : ws.updateResult row m with
      | error e => simp [set_markup, writeOutcome, hf, hu]
      | ok u => simp [set_markup, writeOutcome, hf, hu]

/-- C9 counterexample: on a store whose find call raises, set_markup
returns false and leaves the freshness timestamp at its prior nonzero
value, so the timestamp is not invalidated unconditionally as the claim
states. -/
theorem C9_counterexample :
    (set_markup failingWs { cache := [], lastUpdated := 5 } "CAT" 2).1 = false
    ∧ (set_markup failingWs { cache := [], lastUpdated := 5 } "CAT" 2).2.lastUpdated = 5
    ∧ (5 : ℚ) ≠ 0 := by
  refine ⟨rfl, rfl, by norm_num⟩

/-- C9 witness: the amended theorem applied to a fully succeeding store
with a nonzero prior timestamp. -/
theorem C9_witness :
    (set_markup okWs { cache := [], lastUpdated := 5 } "CAT" 2).2 =
      { cache := [], lastUpdated := 0 } :=
  (C9_set_markup_write_path okWs { cache := [], lastUpdated := 5 } "CAT" 2).1 rfl

/-- C5 (amended): a missing Quantity field parses to 1.0 because the
fetch defaults to 1.0 before conversion, but a Quantity that is present
and unparseable converts through safe_float to 0.0, not 1.0; a Cost that
is missing, empty, or unparseable yields 0.0; no parse failure raises
(the conversion is a total function). -/
theorem C5_parse_defaults (raw : RawItem) (ctx : List (String × String)) :
    (raw.quantity = none → (SaberisLineItem.from_json raw ctx).quantity = 1)
    ∧ (∀ s, raw.quantity = some (.str s) → pyFloat? s = none →
        (SaberisLineItem.from_json raw ctx).quantity = 0)
    ∧ (raw.cost = none → (SaberisLineItem.from_json raw ctx).cost = 0)
    ∧ (raw.cost = some (.str "") → (SaberisLineItem.from_json raw ctx).cost = 0)
    ∧ (∀ s, raw.cost = some (.str s) → pyFloat? s = none →
        (SaberisLineItem.from_json raw ctx).cost = 0) := by
  refine ⟨fun h => ?_, fun s h hp => ?_, fun h => ?_, fun h => ?_, fun s h hp => ?_⟩ <;>
    simp only [SaberisLineItem.from_json, h, Option.getD_some, Option.getD_none,
      safe_float] <;>
    first
      | rfl
      | (split_ifs <;> simp [hp])

/-- C5 counterexample: a product record whose Quantity field is present
but not parseable as a number yields quantity 0.0, not the 1.0 the claim
states. -/
theorem C5_counterexample :
    (SaberisLineItem.from_json
        { type := some "Product", quantity := some (.str "not-a-number") } []).quantity = 0
    ∧ (0 : ℚ) ≠ 1 := by
  refine ⟨rfl, by norm_num⟩

/-- C5 witness: the amended theorem applied to a record with no Quantity
field. -/
theorem C5_witness :
    (SaberisLineItem.from_json { type := some "Product" } []).quantity = 1 :=
  (C5_parse_defaults { type := some "Product" } []).1 rfl

/-- Lookup after insert at the same key. -/
theorem dictGet_insert_self (d : List (String × String)) (k v : String) :
    dictGet (dictInsert d k v) k = some v := by
  induction d with
  | nil => simp [dictInsert, dictGet]
  | cons kv rest ih =>
    obtain ⟨k0, v0⟩ := kv
    by_cases h : k0 = k <;> simp [dictInsert, dictGet, h, ih]

/-- Lookup after insert at a different key. -/
theorem dictGet_insert_ne (d : List (String × String)) (k0 v k : String)
    (h : k0 ≠ k) : dictGet (dictInsert d k0 v) k = dictGet d k := by
  induction d with
  | nil => simp [dictInsert, dictGet, h]
  | cons kv rest ih =>
    obtain ⟨k1, v1⟩ := kv
    by_cases h1 : k1 = k0 <;> simp [dictInsert, dictGet, h, h1, ih]

/-- An added value is a member of the set. -/
theorem mem_setAdd_self (s : List String) (v : String) : v ∈ setAdd s v := by
  by_cases h : v ∈ s <;> simp [setAdd, h]

/-- Processing a Catalog marker stores the stripped raw value under the
Catalog slot, the derived brand under the Brand slot, and adds the raw
value to the catalogs-seen set. -/
theorem processRawItem_catalog_marker (gb : String → String) (st : AssembleState)
    (v : String) (hdim : dimensionMatch ("Catalog=" ++ v) = false) :
    processRawItem gb st (mkTextMarker ("Catalog=" ++ v)) =
      .ok { st with
            context := dictInsert (dictInsert st.context "Catalog" (pyStrip v))
                         "Brand" (gb (pyStrip v))
            catalogs := setAdd st.catalogs (pyStrip v) } := by
  have h1 : strToLower "Text" = "text" := rfl
  have h2 : containsChar ("Catalog=" ++ v) '=' = true := rfl
  have h3 : splitFirstEq ("Catalog=" ++ v) = ("Catalog", v) := rfl
  have h4 : pyStrip "Catalog" = "Catalog" := rfl
  simp [processRawItem, mkTextMarker, h1, h2, h3, h4, hdim]

/-- C4 (amended): processing a marker whose key is the reserved Catalog
key stores the stripped raw catalog value, not the derived brand, under
the Catalog slot of the context; the brand derived via the pricing lookup
is stored under the separate Brand slot; and the raw value is added to
the set of catalogs seen. -/
theorem C4_marker_catalog_slot (gb : String → String) (st : AssembleState)
    (v : String) (hdim : dimensionMatch ("Catalog=" ++ v) = false) :
    processRawItem gb st (mkTextMarker ("Catalog=" ++ v)) =
      .ok { st with
            context := dictInsert (dictInsert st.context "Catalog" (pyStrip v))
                         "Brand" (gb (pyStrip v))
            catalogs := setAdd st.catalogs (pyStrip v) }
    ∧ dictGet (dictInsert (dictInsert st.context "Catalog" (pyStrip v))
         "Brand" (gb (pyStrip v))) "Catalog" = some (pyStrip v)
    ∧ dictGet (dictInsert (dictInsert st.context "Catalog" (pyStrip v))
         "Brand" (gb (pyStrip v))) "Brand" = some (gb (pyStrip v))
    ∧ pyStrip v ∈ setAdd st.catalogs (pyStrip v) := by
  refine ⟨processRawItem_catalog_marker gb st v hdim, ?_, ?_, mem_setAdd_self _ _⟩
  · rw [dictGet_insert_ne _ _ _ _ (by decide), dictGet_insert_self]
  · rw [dictGet_insert_self]

/-- C4 counterexample: processing the marker Catalog=X with a brand
lookup that maps X to X-brand leaves the raw value X, not the brand, in
the Catalog slot of the context, refuting the claim that the brand is
stored under the catalog slot. -/
theorem C4_counterexample :
    (processRawItem testBrand {} (mkTextMarker "Catalog=X")).toOption.map
        (fun st1 => dictGet st1.context "Catalog") = some (some "X")
    ∧ testBrand "X" = "X-brand"
    ∧ ("X" : String) ≠ "X-brand" := by
  refine ⟨rfl, rfl, by decide⟩

/-- C4 witness: the amended theorem applied to the marker Catalog=A on
the empty context. -/
theorem C4_witness :
    dictGet (dictInsert (dictInsert ({} : AssembleState).context "Catalog"
        (pyStrip "A")) "Brand" (testBrand (pyStrip "A"))) "Catalog" =
      some (pyStrip "A") :=
  (C4_marker_catalog_slot testBrand {} "A" (by decide)).2.1

/-- One processing step never rewrites the lines already emitted: it
leaves them unchanged or appends one new line. -/
theorem processRawItem_lines (gb : String → String) (st : AssembleState)
    (raw : RawItem) (st1 : AssembleState)
    (h : processRawItem gb st raw = .ok st1) :
    ∃ tl, st1.lines = st.lines ++ tl := by
  simp only [processRawItem] at h
  repeat' split at h
  all_goals (try cases h)
  all_goals first
    | exact ⟨[], (List.append_nil _).symm⟩
    | exact ⟨[SaberisLineItem.from_json raw st.context], rfl⟩

/-- The record loop over a concatenation runs the two parts in
sequence. -/
theorem runItems_append (gb : String → String) (st : AssembleState)
    (l1 l2 : List RawItem) :
    runItems gb st (l1 ++ l2) =
      match runItems gb st l1 with
      | .error e => .error e
      | .ok st1 => runItems gb st1 l2 := by
  induction l1 generalizing st with
  | nil => simp [runItems]
  | cons r l ih =>
    simp only [List.cons_append, runItems]
    cases processRawItem gb st r <;> simp [ih]

/-- The record loop only ever appends to the emitted lines. -/
theorem runItems_lines (gb : String → String) (l : List RawItem) :
    ∀ st st1, runItems gb st l = .ok st1 → ∃ tl, st1.lines = st.lines ++ tl := by
  induction l with
  | nil =>
    intro st st1 h
    cases h
    exact ⟨[], by simp⟩
  | cons r l ih =>
    intro st st1 h
    unfold runItems at h
    cases hp : processRawItem gb st r with
    | error e => rw [hp] at h; cases h
    | ok st2 =>
      rw [hp] at h
      obtain ⟨tl2, h2⟩ := ih st2 st1 h
      obtain ⟨tl1, h1⟩ := processRawItem_lines gb st r st2 hp
      exact ⟨tl1 ++ tl2, by rw [h2, h1, List.append_assoc]⟩

/-- C6: each line item captures an independent copy of the context at the
moment its product record is parsed.  First, on the record stream with a
Catalog A marker, a product, a Catalog B marker and a second product, the
first line item keeps catalog A (and its empty attribute snapshot) even
though the context later changed to B.  Second, processing further
records only ever appends to the already emitted lines, so no later
marker can change an earlier line item. -/
theorem C6_context_snapshot_isolation (gb : String → String) (f1 f2 : RawItem) :
    (runItems gb {} [mkTextMarker "Catalog=A", asProduct f1,
        mkTextMarker "Catalog=B", asProduct f2]).map
        (fun st => st.lines.map (fun li => (li.catalog, li.attributes))) =
      .ok [("A", []), ("B", [])]
    ∧ (∀ st l1 l2 st1 st2, runItems gb st l1 = .ok st1 →
        runItems gb st1 l2 = .ok st2 →
        runItems gb st (l1 ++ l2) = .ok st2 ∧ ∃ tl, st2.lines = st1.lines ++ tl) := by
  constructor
  · rfl
  · intro st l1 l2 st1 st2 hl1 hl2
    refine ⟨?_, runItems_lines gb l2 st1 st2 hl2⟩
    rw [runItems_append, hl1]
    exact hl2

/-- C6 witness: the snapshot instance of the theorem at a concrete brand
lookup and two empty product records. -/
theorem C6_witness :
    (runItems testBrand {} [mkTextMarker "Catalog=A", asProduct {},
        mkTextMarker "Catalog=B", asProduct {}]).map
        (fun st => st.lines.map (fun li => (li.catalog, li.attributes))) =
      .ok [("A", []), ("B", [])] :=
  (C6_context_snapshot_isolation testBrand {} {}).1

/-- The names after one aggregation step: unchanged when the name was
already present, extended by the new name otherwise. -/
theorem aggInsert_names (acc : List DesiredItem) (item : DesiredItem) :
    (aggInsert acc item).map (·.name) =
      if item.name ∈ acc.map (·.name) then acc.map (·.name)
      else acc.map (·.name) ++ [item.name] := by
  induction acc with
  | nil => simp [aggInsert]
  | cons d rest ih =>
    by_cases h : d.name = item.name
    · simp [aggInsert, h]
    · have hne : item.name ≠ d.name := fun hh => h hh.symm
      by_cases hm : item.name ∈ rest.map (·.name) <;>
        simp [aggInsert, h, ih, hm, hne]

/-- Aggregation preserves duplicate-freedom of the key names. -/
theorem aggregate_go_nodup (l : List DesiredItem) :
    ∀ acc, (acc.map (·.name)).Nodup → ((l.foldl aggInsert acc).map (·.name)).Nodup := by
  induction l with
  | nil => intro acc h; simpa using h
  | cons d l ih =>
    intro acc h
    simp only [List.foldl_cons]
    apply ih
    rw [aggInsert_names]
    by_cases hm : d.name ∈ acc.map (·.name)
    · simpa [hm] using h
    · simp [hm, List.nodup_append, h]

/-- The quantity total of a name over a cons. -/
theorem qtyOf_cons (d : DesiredItem) (L : List DesiredItem) (n : String) :
    qtyOf (d :: L) n = (if d.name = n then d.quantity else 0) + qtyOf L n := by
  by_cases h : d.name = n <;> simp [qtyOf, h]

/-- One aggregation step adds the quantity of the inserted item to the
total of its name and leaves every other name unchanged. -/
theorem qtyOf_aggInsert (acc : List DesiredItem) (item : DesiredItem) (n : String) :
    qtyOf (aggInsert acc item) n =
      qtyOf acc n + (if item.name = n then item.quantity else 0) := by
  induction acc with
  | nil =>
    by_cases h : item.name = n <;> simp [aggInsert, qtyOf, h]
  | cons d rest ih =>
    by_cases h : d.name = item.name
    · by_cases hn : item.name = n
      · subst hn
        rw [show aggInsert (d :: rest) item =
            { d with quantity := d.quantity + item.quantity } :: rest by
              simp [aggInsert, h]]
        rw [qtyOf_cons, qtyOf_cons, if_pos h, if_pos h, if_pos rfl]
        ring
      · have hd : ¬ d.name = n := fun hh => hn (h.symm.trans hh)
        rw [show aggInsert (d :: rest) item =
            { d with quantity := d.quantity + item.quantity } :: rest by
              simp [aggInsert, h]]
        rw [qtyOf_cons, qtyOf_cons, if_neg hd, if_neg hd, if_neg hn]
        ring
    · rw [show aggInsert (d :: rest) item = d :: aggInsert rest item by
          simp [aggInsert, h]]
      rw [qtyOf_cons, qtyOf_cons, ih]
      ring

/-- Folding the aggregation over a list adds the per-name totals of the
list to those of the accumulator. -/
theorem qtyOf_foldl (l : List DesiredItem) :
    ∀ (acc : List DesiredItem) (n : String),
      qtyOf (l.foldl aggInsert acc) n = qtyOf acc n + qtyOf l n := by
  induction l with
  | nil => intro acc n; simp [qtyOf]
  | cons d l ih =>
    intro acc n
    simp only [List.foldl_cons]
    rw [ih, qtyOf_aggInsert, qtyOf_cons]
    ring

/-- The names reached by the aggregation fold are exactly those of the
accumulator and of the input list. -/
theorem names_foldl (l : List DesiredItem) :
    ∀ (acc : List DesiredItem) (n : String),
      n ∈ (l.foldl aggInsert acc).map (·.name) ↔
        n ∈ acc.map (·.name) ∨ n ∈ l.map (·.name) := by
  induction l with
  | nil => intro acc n; simp
  | cons d l ih =>
    intro acc n
    simp only [List.foldl_cons]
    rw [ih, aggInsert_names]
    by_cases hm : d.name ∈ acc.map (·.name)
    · simp only [if_pos hm, List.map_cons, List.mem_cons]
      constructor
      · tauto
      · rintro (h | h | h)
        · tauto
        · subst h; tauto
        · tauto
    · simp only [if_neg hm, List.map_cons, List.mem_cons, List.mem_append,
        List.mem_singleton]
      tauto

/-- A successful existing-items lookup returns a member of the remote
list bearing the looked-up name. -/
theorem existingLookup_mem (E : List RemoteLineItem) (n : String)
    (e : RemoteLineItem) (h : existingLookup E n = some e) : e ∈ E ∧ e.name = n := by
  unfold existingLookup at h
  refine ⟨List.mem_reverse.mp (List.mem_of_find?_eq_some h), ?_⟩
  have := List.find?_some h
  simpa using this

/-- Closed form of the Quote-branch reconciliation fold over any
aggregated list and accumulator. -/
theorem reconcileQuoteGo (E : List RemoteLineItem) :
    ∀ (A : List DesiredItem) (acc : List DesiredItem × List UpdateOp),
      A.foldl (fun acc d =>
        match existingLookup E d.name with
        | some e =>
            if e.id ≠ "" ∧ e.quantity ≠ some d.quantity then
              (acc.1, acc.2 ++ [⟨e.id, d.quantity⟩])
            else acc
        | none => (acc.1 ++ [d], acc.2)) acc =
      (acc.1 ++ A.filter (fun d => (existingLookup E d.name).isNone),
       acc.2 ++ A.filterMap (quoteUpdOf E)) := by
  intro A
  induction A with
  | nil => intro acc; simp
  | cons d A ih =>
    intro acc
    simp only [List.foldl_cons]
    cases he : existingLookup E d.name with
    | none =>
      rw [ih]
      simp [List.filter_cons, List.filterMap_cons, he, quoteUpdOf,
        List.append_assoc, List.singleton_append]
    | some e =>
      rw [ih]
      by_cases hc : e.id ≠ "" ∧ e.quantity ≠ some d.quantity
      · simp [List.filter_cons, List.filterMap_cons, he, quoteUpdOf, hc,
          List.append_assoc, List.singleton_append]
      · simp [List.filter_cons, List.filterMap_cons, he, quoteUpdOf, hc,
          List.append_assoc, List.singleton_append]

/-- Closed form of reconcileQuote: adds are the aggregated items whose
name has no remote counterpart, updates arise from quoteUpdOf. -/
theorem reconcileQuote_eq (D : List DesiredItem) (E : List RemoteLineItem) :
    reconcileQuote D E =
      ((aggregateItems D).filter (fun d => (existingLookup E d.name).isNone),
       (aggregateItems D).filterMap (quoteUpdOf E)) := by
  unfold reconcileQuote
  rw [reconcileQuoteGo]
  simp

/-- Closed form of the Job-branch reconciliation fold. -/
theorem reconcileJobGo (E : List RemoteLineItem) (P : List String) :
    ∀ (A : List DesiredItem) (acc : List DesiredItem × List UpdateOp),
      A.foldl (fun acc d =>
        match existingLookup E d.name with
        | some e =>
            if e.id ≠ "" ∧ e.quantity ≠ some d.quantity then
              (acc.1, acc.2 ++ [⟨e.id, d.quantity⟩])
            else acc
        | none =>
            (acc.1 ++
              [{ d with
                 saveToProductsAndServices := ¬ d.name ∈ P
                 unitPrice := 0 }],
             acc.2)) acc =
      (acc.1 ++ ((A.filter (fun d => (existingLookup E d.name).isNone)).map
         (jobAddRewrite P)),
       acc.2 ++ A.filterMap (quoteUpdOf E)) := by
  intro A
  induction A with
  | nil => intro acc; simp
  | cons d A ih =>
    intro acc
    simp only [List.foldl_cons]
    cases he : existingLookup E d.name with
    | none =>
      rw [ih]
      simp [List.filter_cons, List.filterMap_cons, he, quoteUpdOf, jobAddRewrite,
        List.append_assoc, List.singleton_append]
    | some e =>
      rw [ih]
      by_cases hc : e.id ≠ "" ∧ e.quantity ≠ some d.quantity
      · simp [List.filter_cons, List.filterMap_cons, he, quoteUpdOf, hc,
          List.append_assoc, List.singleton_append]
      · simp [List.filter_cons, List.filterMap_cons, he, quoteUpdOf, hc,
          List.append_assoc, List.singleton_append]

/-- Closed form of reconcileJob. -/
theorem reconcileJob_eq (D : List DesiredItem) (E : List RemoteLineItem)
    (P : List String) :
    reconcileJob D E P =
      (((aggregateItems D).filter (fun d => (existingLookup E d.name).isNone)).map
         (jobAddRewrite P),
       (aggregateItems D).filterMap (quoteUpdOf E)) := by
  unfold reconcileJob
  rw [reconcileJobGo]
  simp

/-- C1: the reconciliation first aggregates desired items by name,
summing quantities (conjuncts one to three: the aggregated names are
duplicate-free, carry the summed quantities of the input, and are exactly
the input names), and then partitions them: toAdd is exactly the
aggregated items whose name is absent from the remote map, and toUpdate
has exactly one entry, keyed by the remote id with the desired quantity,
for each aggregated item whose name is present with a differing quantity;
an equal quantity contributes to neither list, and the two emission
conditions are mutually exclusive, so no name is in both. -/
theorem C1_reconciliation_partition (D : List DesiredItem)
    (E : List RemoteLineItem) (hid : ∀ e ∈ E, e.id ≠ "") :
    ((aggregateItems D).map (·.name)).Nodup
    ∧ (∀ n, qtyOf (aggregateItems D) n = qtyOf D n)
    ∧ (∀ n, n ∈ (aggregateItems D).map (·.name) ↔ n ∈ D.map (·.name))
    ∧ (reconcileQuote D E).1 =
        (aggregateItems D).filter (fun d => (existingLookup E d.name).isNone)
    ∧ (reconcileQuote D E).2 =
        (aggregateItems D).filterMap (fun d =>
          match existingLookup E d.name with
          | some e =>
              if e.quantity ≠ some d.quantity then some ⟨e.id, d.quantity⟩
              else none
          | none => none) := by
  refine ⟨aggregate_go_nodup D [] (by simp), ?_, ?_, ?_, ?_⟩
  · intro n
    have := qtyOf_foldl D [] n
    simpa [qtyOf, aggregateItems] using this
  · intro n
    have := names_foldl D [] n
    simpa [aggregateItems] using this
  · rw [reconcileQuote_eq]
  · rw [reconcileQuote_eq]
    apply List.filterMap_congr
    intro d _
    unfold quoteUpdOf
    cases he : existingLookup E d.name with
    | none => simp
    | some e =>
      have hm := existingLookup_mem E d.name e he
      have : e.id ≠ "" := hid e hm.1
      simp [this]

/-- C1 witness: the toAdd characterization at a concrete reconciliation
with two same-named desired items and one matching remote item. -/
theorem C1_witness :
    (reconcileQuote
        [{ name := "X", quantity := 2 }, { name := "X", quantity := 3 },
         { name := "Y", quantity := 1 }]
        [{ id := "id1", name := "X", quantity := some 4 }]).1 =
      (aggregateItems
        [{ name := "X", quantity := 2 }, { name := "X", quantity := 3 },
         { name := "Y", quantity := 1 }]).filter
        (fun d => (existingLookup [{ id := "id1", name := "X", quantity := some 4 }]
          d.name).isNone) :=
  (C1_reconciliation_partition _ _ (by decide)).2.2.2.1

/-- C10: every line item added (not updated) to a Job carries unitPrice
zero regardless of its cost, and its saveToProductsAndServices flag is
true exactly when its name is absent from the remote
products-and-services names. -/
theorem C10_job_add_flags (D : List DesiredItem) (E : List RemoteLineItem)
    (P : List String) :
    ∀ a ∈ (reconcileJob D E P).1,
      a.unitPrice = 0 ∧ a.saveToProductsAndServices = decide (¬ a.name ∈ P) := by
  intro a ha
  rw [reconcileJob_eq] at ha
  simp only [List.mem_map] at ha
  obtain ⟨d, _, rfl⟩ := ha
  exact ⟨rfl, rfl⟩

/-- C10 witness: the theorem applied to a desired item with nonzero cost
whose name is not a remote product name. -/
theorem C10_witness :
    (⟨"N", 1, 0, none, none, false, true⟩ : DesiredItem).unitPrice = 0
    ∧ (⟨"N", 1, 0, none, none, false, true⟩ : DesiredItem).saveToProductsAndServices =
        decide (¬ (⟨"N", 1, 0, none, none, false, true⟩ : DesiredItem).name ∈ ["M"]) :=
  C10_job_add_flags [{ name := "N", quantity := 1, unitPrice := 5 }] [] ["M"]
    ⟨"N", 1, 0, none, none, false, true⟩ (by decide)

/-- C3 (amended): the Job branch decides reuse by exact full-name
membership in the master products-and-services names, not by the
six-character S2J hash: an added item is marked not-to-save exactly when
its whole name occurs verbatim among the master names, and no link to an
existing master id is recorded. -/
theorem C3_exact_name_matching (D : List DesiredItem) (E : List RemoteLineItem)
    (P : List String) :
    ∀ a ∈ (reconcileJob D E P).1,
      (a.saveToProductsAndServices = false ↔ a.name ∈ P) := by
  intro a ha
  rw [reconcileJob_eq] at ha
  simp only [List.mem_map] at ha
  obtain ⟨d, _, rfl⟩ := ha
  simp [jobAddRewrite]

/-- C3 counterexample: a desired name and a master name share the same
S2J hash suffix abc123, yet the emitted add operation carries
saveToProductsAndServices true and no master-item link: the code matched
the full names, which differ, and ignored the hash. -/
theorem C3_counterexample :
    spec_extractS2JHash "A | S2J(abc123)" = some "abc123"
    ∧ spec_extractS2JHash "B | S2J(abc123)" = some "abc123"
    ∧ (reconcileJob [{ name := "A | S2J(abc123)", quantity := 1 }] []
        ["B | S2J(abc123)"]).1 =
        [{ name := "A | S2J(abc123)", quantity := 1, unitPrice := 0,
           saveToProductsAndServices := true }]
    ∧ ("A | S2J(abc123)" : String) ≠ "B | S2J(abc123)" := by decide

/-- C3 witness: the amended theorem applied to the hash-matching
counterexample input, where the exact name is absent and the flag is
true. -/
theorem C3_witness :
    ((⟨"A | S2J(abc123)", 1, 0, none, none, false, true⟩ : DesiredItem).saveToProductsAndServices
        = false
      ↔ (⟨"A | S2J(abc123)", 1, 0, none, none, false, true⟩ : DesiredItem).name ∈
          ["B | S2J(abc123)"]) :=
  C3_exact_name_matching [{ name := "A | S2J(abc123)", quantity := 1 }] []
    ["B | S2J(abc123)"] ⟨"A | S2J(abc123)", 1, 0, none, none, false, true⟩ (by decide)

/-- Sorting attribute pairs by key is a canonical form: two lists that
are permutations of each other with duplicate-free keys sort to the same
list, because both sorts are sorted under the strict key order, which is
antisymmetric. -/
theorem sortPairs_perm_eq (l1 l2 : List (String × String)) (hp : l1.Perm l2)
    (hnd : (l1.map Prod.fst).Nodup) : sortPairs l1 = sortPairs l2 := by
  unfold sortPairs
  haveI : IsTotal (String × String) (fun a b => a.1 ≤ b.1) :=
    ⟨fun a b => le_total a.1 b.1⟩
  haveI : IsTrans (String × String) (fun a b => a.1 ≤ b.1) :=
    ⟨fun a b c hab hbc => le_trans hab hbc⟩
  haveI : IsAntisymm (String × String) (fun a b : String × String => a.1 < b.1) :=
    ⟨fun a b h1 h2 => absurd (lt_trans h1 h2) (lt_irrefl _)⟩
  have p1 := List.perm_insertionSort (fun a b : String × String => a.1 ≤ b.1) l1
  have p2 := List.perm_insertionSort (fun a b : String × String => a.1 ≤ b.1) l2
  have hperm := p1.trans (hp.trans p2.symm)
  have hs1 := List.sorted_insertionSort (fun a b : String × String => a.1 ≤ b.1) l1
  have hs2 := List.sorted_insertionSort (fun a b : String × String => a.1 ≤ b.1) l2
  have hnd1 : ((List.insertionSort (fun a b : String × String => a.1 ≤ b.1) l1).map
      Prod.fst).Nodup := ((p1.map Prod.fst).nodup_iff).2 hnd
  have hnd2 : ((List.insertionSort (fun a b : String × String => a.1 ≤ b.1) l2).map
      Prod.fst).Nodup := ((p2.map Prod.fst).nodup_iff).2 ((hp.map Prod.fst).nodup_iff.1 hnd)
  have strict : ∀ (l : List (String × String)),
      List.Sorted (fun a b : String × String => a.1 ≤ b.1) l →
      (l.map Prod.fst).Nodup →
      List.Sorted (fun a b : String × String => a.1 < b.1) l := by
    intro l hs hn
    have hpw : l.Pairwise (fun a b => a.1 ≠ b.1) := List.pairwise_map.1 hn
    exact (hs.and hpw).imp (fun h => lt_of_le_of_ne h.1 h.2)
  exact List.eq_of_perm_of_sorted hperm (strict _ hs1 hnd1) (strict _ hs2 hnd2)

/-- Serialization of a line item is invariant under a permutation of its
attribute map with duplicate-free keys. -/
theorem serializeLineItem_attrs_perm (li : SaberisLineItem)
    (attrs2 : List (String × String)) (hp : li.attributes.Perm attrs2)
    (hnd : (li.attributes.map Prod.fst).Nodup) :
    serializeLineItem li = serializeLineItem { li with attributes := attrs2 } := by
  unfold serializeLineItem serializeAttrs
  rw [sortPairs_perm_eq li.attributes attrs2 hp hnd]

/-- The canonical payload is invariant under a permutation of one line
item attribute map with duplicate-free keys. -/
theorem payload_attrs_perm (pre post : List SaberisLineItem)
    (li : SaberisLineItem) (attrs2 : List (String × String))
    (hp : li.attributes.Perm attrs2) (hnd : (li.attributes.map Prod.fst).Nodup) :
    payloadString (pre ++ li :: post) =
      payloadString (pre ++ { li with attributes := attrs2 } :: post) := by
  unfold payloadString
  rw [List.map_append, List.map_cons, List.map_append, List.map_cons,
    serializeLineItem_attrs_perm li attrs2 hp hnd]

/-- The first catalog code only reads the type and description of each
line, so it ignores a change of attributes in one line. -/
theorem firstCatalogCode_congr (pre post : List SaberisLineItem)
    (li1 li2 : SaberisLineItem) (ht : li1.type = li2.type)
    (hd : li1.description = li2.description) :
    firstCatalogCode (pre ++ li1 :: post) = firstCatalogCode (pre ++ li2 :: post) := by
  induction pre with
  | nil => simp only [List.nil_append, firstCatalogCode, ht, hd]
  | cons p pre ih =>
    simp only [List.cons_append, firstCatalogCode, List.append_eq]
    rw [ih]

/-- C7 (amended): unique_key is the username, the Ymd-rendered creation
date, the first catalog code, and the first four hex characters of the
MD5 of the canonical payload, joined by underscores; it depends only on
the username, creation date, and lines, so re-parsing identical input
yields an identical key; and it is invariant under reordering of an
attribute map with duplicate-free keys, because the serialization sorts
keys.  The claim that the key changes whenever a line item field changes
is dropped: the key sees the line items only through a four-character
truncated hash, which can collide (see the counterexample). -/
theorem C7_unique_key_canonical :
    (∀ o : SaberisOrder, o.unique_key =
        o.username ++ "_" ++ fmtDateYmd o.created_at ++ "_" ++
          firstCatalogCode o.lines ++ "_" ++ strTake (md5hex (payloadString o.lines)) 4)
    ∧ (∀ o1 o2 : SaberisOrder, o1.username = o2.username →
        o1.created_at = o2.created_at → o1.lines = o2.lines →
        o1.unique_key = o2.unique_key)
    ∧ (∀ (o : SaberisOrder) (pre post : List SaberisLineItem)
        (li : SaberisLineItem) (attrs2 : List (String × String)),
        li.attributes.Perm attrs2 → (li.attributes.map Prod.fst).Nodup →
        SaberisOrder.unique_key { o with lines := pre ++ li :: post } =
          SaberisOrder.unique_key
            { o with lines := pre ++ { li with attributes := attrs2 } :: post }) := by
  refine ⟨fun o => rfl, ?_, ?_⟩
  · intro o1 o2 hu hd hl
    unfold SaberisOrder.unique_key
    rw [hu, hd, hl]
  · intro o pre post li attrs2 hp hnd
    unfold SaberisOrder.unique_key
    dsimp only
    rw [payload_attrs_perm pre post li attrs2 hp hnd,
      firstCatalogCode_congr pre post li { li with attributes := attrs2 } rfl rfl]

/-- C7 witness: the canonicalization conjunct applied to a concrete order
whose single line item has its two attributes inserted in swapped
orders. -/
theorem C7_witness :
    SaberisOrder.unique_key { sampleOrder "x" with lines :=
        [] ++ { sampleItem "x" with attributes := [("a", "1"), ("b", "2")] } :: [] } =
      SaberisOrder.unique_key { sampleOrder "x" with lines :=
        [] ++ { sampleItem "x" with attributes := [("b", "2"), ("a", "1")] } :: [] } :=
  C7_unique_key_canonical.2.2 (sampleOrder "x") [] []
    { sampleItem "x" with attributes := [("a", "1"), ("b", "2")] }
    [("b", "2"), ("a", "1")] (by decide) (by decide)

set_option maxRecDepth 1000000 in
set_option maxHeartbeats 2000000 in
/-- C7 counterexample: two orders that differ in a line item field (the
descriptions d29 and d42) but have the same unique_key, because the four
character truncated MD5 of their canonical payloads coincides; so the key
does not change whenever a line item field changes. -/
theorem C7_counterexample :
    (sampleOrder "d29").lines ≠ (sampleOrder "d42").lines
    ∧ (sampleOrder "d29").unique_key = (sampleOrder "d42").unique_key := by
  refine ⟨by decide, by decide⟩

/-- Appending strings concatenates their character data. -/
theorem str_data_append (a b : String) : (a ++ b).data = a.data ++ b.data := rfl

/-- Strings with the same character data are equal. -/
theorem str_eq_of_data (a b : String) (h : a.data = b.data) : a = b :=
  String.ext h

/-- A nonempty string has nonempty character data. -/
theorem str_data_ne_nil (v : String) (h : v ≠ "") : v.data ≠ [] :=
  fun hd => h (str_eq_of_data v "" hd)

/-- The join of a nonempty list splits off its head, with the tail joined
by joinSuf. -/
theorem joinSep_cons_data (sep : String) (x : String) (ys : List String) :
    (joinSep sep (x :: ys)).data = x.data ++ (joinSuf sep ys).data := by
  induction ys generalizing x with
  | nil => simp [joinSep, joinSuf]
  | cons z zs ih =>
    rw [show joinSep sep (x :: z :: zs) = x ++ sep ++ joinSep sep (z :: zs) from rfl,
      str_data_append, str_data_append, ih z,
      show joinSuf sep (z :: zs) = sep ++ z ++ joinSuf sep zs from rfl,
      str_data_append, str_data_append]
    simp [List.append_assoc]

/-- joinSuf distributes over list append. -/
theorem joinSuf_append_data (sep : String) (xs ys : List String) :
    (joinSuf sep (xs ++ ys)).data = (joinSuf sep xs).data ++ (joinSuf sep ys).data := by
  induction xs with
  | nil => simp [joinSuf]
  | cons x xs ih =>
    rw [List.cons_append,
      show joinSuf sep (x :: (xs ++ ys)) = sep ++ x ++ joinSuf sep (xs ++ ys) from rfl,
      str_data_append, str_data_append, ih,
      show joinSuf sep (x :: xs) = sep ++ x ++ joinSuf sep xs from rfl,
      str_data_append, str_data_append]
    simp [List.append_assoc]

/-- Data of joinSuf on a cons, right-nested. -/
theorem joinSuf_cons_data (sep x : String) (ys : List String) :
    (joinSuf sep (x :: ys)).data = sep.data ++ (x.data ++ (joinSuf sep ys).data) := by
  rw [show joinSuf sep (x :: ys) = sep ++ x ++ joinSuf sep ys from rfl,
    str_data_append, str_data_append]
  simp [List.append_assoc]

/-- Data of joinPre on a cons, expressed through joinSuf. -/
theorem joinPre_cons_data (sep : String) (xs : List String) (x : String) :
    (joinPre sep (x :: xs)).data = x.data ++ ((joinSuf sep xs).data ++ sep.data) := by
  induction xs generalizing x with
  | nil => simp [joinPre, joinSuf, str_data_append]
  | cons z zs ih =>
    rw [show joinPre sep (x :: z :: zs) = x ++ sep ++ joinPre sep (z :: zs) from rfl,
      str_data_append, str_data_append, ih z, joinSuf_cons_data]
    simp [List.append_assoc]

/-- Decomposition of a join at a distinguished middle element. -/
theorem joinSep_mid_data (sep m : String) (xs ys : List String) :
    (joinSep sep (xs ++ m :: ys)).data =
      (joinPre sep xs).data ++ (m.data ++ (joinSuf sep ys).data) := by
  cases xs with
  | nil => simp [joinPre, joinSep_cons_data]
  | cons x xs =>
    rw [List.cons_append, joinSep_cons_data, joinSuf_append_data, joinSuf_cons_data,
      joinPre_cons_data]
    simp [List.append_assoc]

/-- Inserting an element into a joined list grows the join by at least
the length of the element. -/
theorem joinSep_len_mid (sep m : String) (xs ys : List String) :
    (joinSep sep (xs ++ ys)).data.length + m.data.length ≤
      (joinSep sep (xs ++ m :: ys)).data.length := by
  cases xs with
  | nil =>
    rw [List.nil_append, List.nil_append, joinSep_cons_data]
    have h1 : (joinSep sep ys).data.length ≤ (joinSuf sep ys).data.length := by
      cases ys with
      | nil => simp [joinSep, joinSuf]
      | cons z zs =>
        rw [joinSep_cons_data, joinSuf_cons_data]
        simp [List.length_append]
    simp only [List.length_append]
    omega
  | cons x xs =>
    rw [List.cons_append, List.cons_append, joinSep_cons_data, joinSep_cons_data,
      joinSuf_append_data, joinSuf_append_data, joinSuf_cons_data]
    simp only [List.length_append]
    omega

/-- Description lines of a cons of attributes. -/
theorem descParts_cons (kv : String × String) (l : List (String × String)) :
    descParts (kv :: l) = attrDescLines kv.1 kv.2 ++ descParts l := rfl

/-- Description lines distribute over append. -/
theorem descParts_append (A B : List (String × String)) :
    descParts (A ++ B) = descParts A ++ descParts B := by
  induction A with
  | nil => rfl
  | cons kv A ih =>
    rw [List.cons_append, descParts_cons, descParts_cons, ih, List.append_assoc]

/-- Title values of a cons of attributes. -/
theorem titleVals_cons (kv : String × String) (l : List (String × String)) :
    titleVals (kv :: l) = attrTitleVals kv.1 kv.2 ++ titleVals l := rfl

/-- Title values distribute over append. -/
theorem titleVals_append (A B : List (String × String)) :
    titleVals (A ++ B) = titleVals A ++ titleVals B := by
  induction A with
  | nil => rfl
  | cons kv A ih =>
    rw [List.cons_append, titleVals_cons, titleVals_cons, ih, List.append_assoc]

/-- Extraction of an aligned middle segment from an equality of
concatenations with a common prefix. -/
theorem extract_mid {A r1 r2 v1 v2 : List Char}
    (h : A ++ (v1 ++ r1) = A ++ (v2 ++ r2)) (hlen : v1.length = v2.length) :
    v1 = v2 :=
  (List.append_inj (List.append_cancel_left h) hlen).1

/-- C8 (amended): the six character hash in the S2J suffix of a
synthesized name is the truncated MD5 of the signature string (second
conjunct), and changing the value of any single non-price-level attribute
while holding the catalog and description fixed changes that signature
string (first conjunct); the truncated hash itself, however, can coincide
for different signatures, as the counterexample shows, and a price-level
attribute is excluded from the signature altogether. -/
theorem C8_signature_sensitivity (li : SaberisLineItem)
    (P S : List (String × String)) (k v1 v2 : String)
    (hpl : isPriceLevel k = false) (hne : v1 ≠ v2) :
    (signatureStr { li with attributes := P ++ (k, v1) :: S } ≠
      signatureStr { li with attributes := P ++ (k, v2) :: S })
    ∧ (∀ (li0 : SaberisLineItem) (q : ℤ), (synthesizeLine li0 q).name =
        baseProductName li0 ++ " | S2J(" ++
          strTake (md5hex (signatureStr li0)) 6 ++ ")") := by
  refine ⟨?_, fun li0 q => rfl⟩
  intro hEq
  apply hne
  apply str_eq_of_data
  have hd : (signatureStr { li with attributes := P ++ (k, v1) :: S }).data =
      (signatureStr { li with attributes := P ++ (k, v2) :: S }).data :=
    congrArg String.data hEq
  have hsig : ∀ v, (signatureStr { li with attributes := P ++ (k, v) :: S }).data =
      (baseProductName { li with attributes := P ++ (k, v) :: S }).data ++
        (jobberDescription { li with attributes := P ++ (k, v) :: S }).data :=
    fun v => rfl
  have hbase_list : ∀ v, baseNameParts { li with attributes := P ++ (k, v) :: S } =
      [li.brand, remove_curly_braces_and_content li.description] ++
        (titleVals P ++ (attrTitleVals k v ++ titleVals S)) := by
    intro v
    simp [baseNameParts, titleVals_append, titleVals_cons]
  have hdesc_list : ∀ v, descParts (P ++ (k, v) :: S) =
      descParts P ++ (attrDescLines k v ++ descParts S) := by
    intro v
    rw [descParts_append, descParts_cons]
  by_cases htf : titleField k = true
  · have horr : k = "Door Selection" ∨ k = "Cabinet Style" := by
      simpa [titleField] using htf
    have hsf : k ≠ "Species / Finish" := by
      rcases horr with rfl | rfl <;> decide
    have hdl : ∀ v, attrDescLines k v = [k ++ ": " ++ v] := by
      intro v
      simp [attrDescLines, hpl, hsf]
    have htv : ∀ v, attrTitleVals k v = [v] := by
      intro v
      simp [attrTitleVals, hpl, htf]
    have hdesc : ∀ v,
        (jobberDescription { li with attributes := P ++ (k, v) :: S }).data =
          (joinPre "\n" (descParts P)).data ++ ((k ++ ": ").data ++
            (v.data ++ (joinSuf "\n" (descParts S)).data)) := by
      intro v
      show (joinSep "\n" (descParts (P ++ (k, v) :: S))).data = _
      rw [hdesc_list v, hdl v,
        show descParts P ++ ([k ++ ": " ++ v] ++ descParts S) =
          descParts P ++ (k ++ ": " ++ v) :: descParts S from rfl,
        joinSep_mid_data,
        show ((k ++ ": " ++ v) : String).data = (k ++ ": ").data ++ v.data from rfl]
      simp [List.append_assoc]
    have hdlen : ∀ v,
        (jobberDescription { li with attributes := P ++ (k, v) :: S }).data.length =
          (joinPre "\n" (descParts P)).data.length + ((k ++ ": ").data.length +
            (v.data.length + (joinSuf "\n" (descParts S)).data.length)) := by
      intro v
      rw [hdesc v]
      simp [List.length_append]
      omega
    have hbl : ∀ v, baseProductName { li with attributes := P ++ (k, v) :: S } =
        joinSep " | "
          (List.filter (· ≠ "")
            (li.brand :: remove_curly_braces_and_content li.description ::
              titleVals P) ++
            (List.filter (· ≠ "") [v] ++ List.filter (· ≠ "") (titleVals S))) := by
      intro v
      unfold baseProductName
      rw [hbase_list v, htv v,
        show [li.brand, remove_curly_braces_and_content li.description] ++
            (titleVals P ++ ([v] ++ titleVals S)) =
          (li.brand :: remove_curly_braces_and_content li.description ::
            titleVals P) ++ ([v] ++ titleVals S) by simp,
        List.filter_append, List.filter_append]
    have hfil : ∀ v : String, v ≠ "" → List.filter (· ≠ "") [v] = [v] := by
      intro v hv
      simp [hv]
    have hb : ∀ v : String, v ≠ "" →
        (baseProductName { li with attributes := P ++ (k, v) :: S }).data =
          (joinPre " | "
            (List.filter (· ≠ "")
              (li.brand :: remove_curly_braces_and_content li.description ::
                titleVals P))).data ++
            (v.data ++ (joinSuf " | " (List.filter (· ≠ "") (titleVals S))).data) := by
      intro v hv
      rw [hbl v, hfil v hv, List.singleton_append, joinSep_mid_data]
    have key : ∀ va vb : String, va = "" → vb ≠ "" →
        (signatureStr { li with attributes := P ++ (k, va) :: S }).data =
          (signatureStr { li with attributes := P ++ (k, vb) :: S }).data → False := by
      intro va vb hva hvb heq
      subst hva
      have hba : (baseProductName { li with attributes := P ++ (k, "") :: S }).data =
          (joinSep " | "
            (List.filter (· ≠ "")
              (li.brand :: remove_curly_braces_and_content li.description ::
                titleVals P) ++
              List.filter (· ≠ "") (titleVals S))).data := by
        rw [hbl ""]
        simp
      have hlenb := joinSep_len_mid " | " vb
        (List.filter (· ≠ "")
          (li.brand :: remove_curly_braces_and_content li.description ::
            titleVals P))
        (List.filter (· ≠ "") (titleVals S))
      rw [joinSep_mid_data] at hlenb
      have hvb1 : 1 ≤ vb.data.length := by
        have hnn := str_data_ne_nil vb hvb
        cases hq : vb.data with
        | nil => exact absurd hq hnn
        | cons a l => simp [hq]
      have hl := congrArg List.length heq
      rw [hsig "", hsig vb] at hl
      simp only [List.length_append] at hl
      rw [congrArg List.length hba, congrArg List.length (hb vb hvb),
        hdlen "", hdlen vb] at hl
      simp only [List.length_append, show ("" : String).data = [] from rfl,
        List.length_nil] at hl hlenb
      omega
    by_cases h1 : v1 = ""
    · by_cases h2 : v2 = ""
      · rw [h1, h2]
      · exact (key v1 v2 h1 h2 hd).elim
    · by_cases h2 : v2 = ""
      · exact (key v2 v1 h2 h1 hd.symm).elim
      · have h0 := hd
        rw [hsig v1, hsig v2, hb v1 h1, hb v2 h2, hdesc v1, hdesc v2] at h0
        simp only [List.append_assoc] at h0
        have h1' := List.append_cancel_left h0
        have hlen : v1.data.length = v2.data.length := by
          have hl := congrArg List.length h1'
          simp only [List.length_append] at hl
          omega
        exact (List.append_inj h1' hlen).1
  · have htv : ∀ v, attrTitleVals k v = ([] : List String) := by
      intro v
      simp [attrTitleVals, hpl, htf]
    have hbase : baseProductName { li with attributes := P ++ (k, v1) :: S } =
        baseProductName { li with attributes := P ++ (k, v2) :: S } := by
      unfold baseProductName
      rw [hbase_list v1, hbase_list v2, htv v1, htv v2]
    by_cases hsf : k = "Species / Finish"
    · subst hsf
      have hdl : ∀ v, attrDescLines "Species / Finish" v =
          ["Finish / Species: " ++ v, "Species / Finish" ++ ": " ++ v] :=
        fun v => rfl
      have hdesc : ∀ v,
          (jobberDescription { li with attributes :=
              P ++ ("Species / Finish", v) :: S }).data =
            (joinPre "\n" (descParts P)).data ++
              (("Finish / Species: ").data ++ (v.data ++
                (("\n").data ++ (("Species / Finish" ++ ": ").data ++ (v.data ++
                  (joinSuf "\n" (descParts S)).data))))) := by
        intro v
        show (joinSep "\n" (descParts (P ++ ("Species / Finish", v) :: S))).data = _
        rw [hdesc_list v, hdl v,
          show descParts P ++
              (["Finish / Species: " ++ v, "Species / Finish" ++ ": " ++ v] ++
                descParts S) =
            descParts P ++ ("Finish / Species: " ++ v) ::
              (("Species / Finish" ++ ": " ++ v) :: descParts S) from rfl,
          joinSep_mid_data, joinSuf_cons_data]
        rw [show (("Finish / Species: " ++ v) : String).data =
            ("Finish / Species: ").data ++ v.data from rfl,
          show (("Species / Finish" ++ ": " ++ v) : String).data =
            ("Species / Finish" ++ ": ").data ++ v.data from rfl]
        simp [List.append_assoc]
      have h0 := hd
      rw [hsig v1, hsig v2, hbase, hdesc v1, hdesc v2] at h0
      have h1 := List.append_cancel_left h0
      have h2 := List.append_cancel_left h1
      have h3 := List.append_cancel_left h2
      have hlen : v1.data.length = v2.data.length := by
        have hl := congrArg List.length h3
        simp only [List.length_append] at hl
        omega
      exact (List.append_inj h3 hlen).1
    · have hdl : ∀ v, attrDescLines k v = [k ++ ": " ++ v] := by
        intro v
        simp [attrDescLines, hpl, hsf]
      have hdesc : ∀ v,
          (jobberDescription { li with attributes := P ++ (k, v) :: S }).data =
            (joinPre "\n" (descParts P)).data ++ ((k ++ ": ").data ++
              (v.data ++ (joinSuf "\n" (descParts S)).data)) := by
        intro v
        show (joinSep "\n" (descParts (P ++ (k, v) :: S))).data = _
        rw [hdesc_list v, hdl v,
          show descParts P ++ ([k ++ ": " ++ v] ++ descParts S) =
            descParts P ++ (k ++ ": " ++ v) :: descParts S from rfl,
          joinSep_mid_data,
          show ((k ++ ": " ++ v) : String).data = (k ++ ": ").data ++ v.data from rfl]
        simp [List.append_assoc]
      have h0 := hd
      rw [hsig v1, hsig v2, hbase, hdesc v1, hdesc v2] at h0
      have h1 := List.append_cancel_left h0
      have h2 := List.append_cancel_left h1
      have h3 := List.append_cancel_left h2
      exact List.append_cancel_right h3

set_option maxRecDepth 1000000 in
set_option maxHeartbeats 2000000 in
/-- C8 counterexample: two line items identical except for the value of
their single attribute (v3800 against v4244) synthesize byte-identical
names, including the same S2J hash suffix a56881, because the six
character truncated MD5 of their distinct signature strings coincides; so
changing an attribute value does not always change the hash suffix. -/
theorem C8_counterexample :
    ({ sampleItem "D" with brand := "B", attributes := [("A", "v3800")] }
        : SaberisLineItem).attributes ≠
      ({ sampleItem "D" with brand := "B", attributes := [("A", "v4244")] }
        : SaberisLineItem).attributes
    ∧ signatureStr
        { sampleItem "D" with brand := "B", attributes := [("A", "v3800")] } ≠
      signatureStr
        { sampleItem "D" with brand := "B", attributes := [("A", "v4244")] }
    ∧ (synthesizeLine
          { sampleItem "D" with brand := "B", attributes := [("A", "v3800")] }
          1).name =
        (synthesizeLine
          { sampleItem "D" with brand := "B", attributes := [("A", "v4244")] }
          1).name := by
  refine ⟨by decide, by decide, by decide⟩

/-- C8 witness: the signature-change conjunct applied to one concrete
attribute change. -/
theorem C8_witness :
    signatureStr { sampleItem "D" with attributes := [] ++ ("A", "x") :: [] } ≠
      signatureStr { sampleItem "D" with attributes := [] ++ ("A", "y") :: [] } :=
  (C8_signature_sensitivity (sampleItem "D") [] [] "A" "x" "y" (by decide)
    (by decide)).1

end S2J
